import Mathlib

/-!
Shallow embedding of the optimistic client-state synchronization slice of the
`frontend_todo` repository: the Tree Reconciler (pure tree operations from the
board page), the Status Update Batcher, the Pending Operation Queue
(`src/utils/offlineQueue.ts`), the offline replay loop, the live-update
(push message) consumer, and the board controller handlers for status change
and deletion.  TypeScript records become Lean structures; `subtodos?: Todo[]`
(possibly `undefined`) becomes a plain `List Todo` with `[]` for the absent
case, matching how every operation treats `undefined` subtodo arrays
(`?.map` / `?? []`).  JS numbers used as ids are embedded as `Int`
(negative ids mark optimistic placeholders).
-/

/-- Workflow status of a todo: the closed three-state enumeration
`"TODO" | "IN_PROGRESS" | "DONE"` from `services/api`. -/
inductive Status where
  | TODO
  | IN_PROGRESS
  | DONE
deriving DecidableEq, Repr

/-- Timeline (activity log) event of a todo, from `services/api`
(`TimelineEvent`). -/
structure TimelineEvent where
  id : Int
  type : String
  message : String
  actorUserId : Option Int
  createdAt : String
deriving DecidableEq, Repr

/-- Scalar fields of a `Todo` record (everything except the recursive
`subtodos` array), from the `Todo` interface in `services/api`. -/
structure TodoData where
  id : Int
  title : String
  description : Option String
  imageUrl : Option String
  startDate : Option String
  endDate : Option String
  status : Status
  parentId : Option Int
  createdAt : String
  updatedAt : String
  timeline : List TimelineEvent
deriving DecidableEq, Repr

/-- A todo item: its scalar fields plus the ordered list of sub-items.
This is the TS `Todo` record with the recursive `subtodos` field split out
so the rose tree can be expressed as a nested inductive. -/
inductive Todo where
  | node (data : TodoData) (subtodos : List Todo)

/-- Scalar fields of a todo node. -/
def Todo.data : Todo → TodoData
  | .node d _ => d

/-- Sub-items of a todo node (`todo.subtodos`, `[]` when absent). -/
def Todo.subtodos : Todo → List Todo
  | .node _ subs => subs

/-- Identifier of a todo (`todo.id`). -/
def Todo.id (t : Todo) : Int := t.data.id

/-- Status of a todo (`todo.status`). -/
def Todo.status (t : Todo) : Status := t.data.status

/-- Spread `{ ...todo, status }`: replace only the status, keeping all other
fields and the subtodos. -/
def setStatus (t : Todo) (st : Status) : Todo :=
  match t with
  | .node d subs => .node { d with status := st } subs

mutual
/-- Node part of `cloneTodos` from the board page: `{ ...todo, subtodos:
todo.subtodos ? cloneTodos(todo.subtodos) : todo.subtodos }`. -/
def cloneNode : Todo → Todo
  | .node d subs => .node d (cloneTodos subs)
/-- Deep copy `cloneTodos(list)` from the board page
(`list.map((todo) => ({ ...todo, subtodos: ... }))`). -/
def cloneTodos : List Todo → List Todo
  | [] => []
  | t :: rest => cloneNode t :: cloneTodos rest
end

mutual
/-- Effect of `removeTodoFromTree` on one surviving node: recurse into its
subtodos (`{ ...todo, subtodos: removeTodoFromTree(todo.subtodos, targetId) }`). -/
def removeTodoNode : Todo → Int → Todo
  | .node d subs, targetId => .node d (removeTodoFromTree subs targetId)
/-- `removeTodoFromTree(list, targetId)` from the board page:
`list.filter((todo) => todo.id !== targetId).map(recurse into subtodos)`,
written here with the filter and map fused into one pass over the list. -/
def removeTodoFromTree : List Todo → Int → List Todo
  | [], _ => []
  | t :: rest, targetId =>
    if t.id = targetId then removeTodoFromTree rest targetId
    else removeTodoNode t targetId :: removeTodoFromTree rest targetId
end

mutual
/-- Per-node body of `addSubTodoToParent`: append to the matching parent's
subtodos, otherwise recurse when the subtodo list is non-empty, otherwise
return the node unchanged. -/
def addSubNode : Todo → Int → Todo → Todo
  | .node d subs, parentId, subTodo =>
    if d.id = parentId then .node d (subs ++ [subTodo])
    else if subs.isEmpty then .node d subs
    else .node d (addSubTodoToParent subs parentId subTodo)
/-- `addSubTodoToParent(list, parentId, subTodo)` from the board page
(`list.map(...)`). -/
def addSubTodoToParent : List Todo → Int → Todo → List Todo
  | [], _, _ => []
  | t :: rest, parentId, subTodo =>
    addSubNode t parentId subTodo :: addSubTodoToParent rest parentId subTodo
end

mutual
/-- Per-node body of `upsertTodoInTree`: replace the node whose id matches
`updated.id`, otherwise recurse when the subtodo list is non-empty. -/
def upsertNode : Todo → Todo → Todo
  | .node d subs, updated =>
    if d.id = updated.id then updated
    else if subs.isEmpty then .node d subs
    else .node d (upsertTodoInTree subs updated)
/-- `upsertTodoInTree(list, updated)` from the board page (`list.map(...)`). -/
def upsertTodoInTree : List Todo → Todo → List Todo
  | [], _ => []
  | t :: rest, updated => upsertNode t updated :: upsertTodoInTree rest updated
end

/-- Inner arrow function of `applyStatusToList`'s second branch:
`sub.id === targetId ? { ...sub, status } : sub`. -/
def patchStatusIfMatch (targetId : Int) (status : Status) (sub : Todo) : Todo :=
  if sub.id = targetId then setStatus sub status else sub

/-- Per-node body of `applyStatusToList`: set the status on the node whose id
matches (cascading `DONE` onto its direct subtodos), else patch a directly
matching subtodo, else leave the node unchanged.  Not recursive beyond the
one explicit subtodo level, exactly as in the source. -/
def applyStatusToNode (targetId : Int) (status : Status) (todo : Todo) : Todo :=
  match todo with
  | .node d subs =>
    if d.id = targetId then
      let subtodos :=
        if status = Status.DONE then subs.map (fun sub => setStatus sub Status.DONE)
        else subs
      .node { d with status := status } subtodos
    else if subs.any (fun sub => sub.id == targetId) then
      .node d (subs.map (patchStatusIfMatch targetId status))
    else todo

/-- `applyStatusToList(list, targetId, status)` from the board page
(`list.map(...)`). -/
def applyStatusToList (list : List Todo) (targetId : Int) (status : Status) :
    List Todo :=
  list.map (applyStatusToNode targetId status)

/-- Partial update record for `applyMetaToList`
(`Partial<Pick<Todo, "title" | "description" | "startDate" | "endDate">>`):
`none` in the outer `Option` means the key is absent from the update object,
so the spread `{ ...todo, ...updates }` keeps the existing value. -/
structure MetaUpdates where
  title : Option String := none
  description : Option (Option String) := none
  startDate : Option (Option String) := none
  endDate : Option (Option String) := none
deriving DecidableEq, Repr

/-- Spread `{ ...todo, ...updates }` on the scalar fields: present update keys
overwrite, absent keys keep the existing field. -/
def applyMetaData (d : TodoData) (u : MetaUpdates) : TodoData :=
  { d with
    title := u.title.getD d.title
    description := u.description.getD d.description
    startDate := u.startDate.getD d.startDate
    endDate := u.endDate.getD d.endDate }

mutual
/-- Per-node body of `applyMetaToList`: shallow-merge the updates onto the
matching node, otherwise recurse when the subtodo list is non-empty. -/
def applyMetaNode : Todo → Int → MetaUpdates → Todo
  | .node d subs, targetId, updates =>
    if d.id = targetId then .node (applyMetaData d updates) subs
    else if subs.isEmpty then .node d subs
    else .node d (applyMetaToList subs targetId updates)
/-- `applyMetaToList(list, targetId, updates)` from the board page
(`list.map(...)`). -/
def applyMetaToList : List Todo → Int → MetaUpdates → List Todo
  | [], _, _ => []
  | t :: rest, targetId, updates =>
    applyMetaNode t targetId updates :: applyMetaToList rest targetId updates
end

mutual
/-- Boolean structural equality on todo nodes (value equality of the records
the TypeScript objects denote). -/
def todoBEq : Todo → Todo → Bool
  | .node d1 s1, .node d2 s2 => (d1 == d2) && todoListBEq s1 s2
/-- Boolean structural equality on todo lists. -/
def todoListBEq : List Todo → List Todo → Bool
  | [], [] => true
  | a :: as, b :: bs => todoBEq a b && todoListBEq as bs
  | [], _ :: _ => false
  | _ :: _, [] => false
end

mutual
theorem todoBEq_iff : ∀ a b : Todo, todoBEq a b = true ↔ a = b
  | .node d1 s1, .node d2 s2 => by
    simp [todoBEq, todoListBEq_iff s1 s2]
theorem todoListBEq_iff : ∀ as bs : List Todo, todoListBEq as bs = true ↔ as = bs
  | [], [] => by simp [todoListBEq]
  | [], _ :: _ => by simp [todoListBEq]
  | _ :: _, [] => by simp [todoListBEq]
  | a :: as, b :: bs => by
    simp [todoListBEq, todoBEq_iff a b, todoListBEq_iff as bs]
end

instance : DecidableEq Todo := fun a b => decidable_of_iff _ (todoBEq_iff a b)

/-- Convenience constructor for concrete test items: a todo with the given
id, status and subtodos and innocuous scalar fields. -/
def mkTodo (id : Int) (st : Status) (subs : List Todo) : Todo :=
  .node
    { id := id, title := "t", description := none, imageUrl := none,
      startDate := none, endDate := none, status := st, parentId := none,
      createdAt := "", updatedAt := "", timeline := [] }
    subs

mutual
/-- Does this node or any of its descendants carry the given id? -/
def nodeContainsId : Todo → Int → Bool
  | .node d subs, i => d.id == i || treeContainsId subs i
/-- Does any node anywhere in the tree carry the given id? -/
def treeContainsId : List Todo → Int → Bool
  | [], _ => false
  | t :: rest, i => nodeContainsId t i || treeContainsId rest i
end

/-- Entry of the Status Update Batcher's in-memory queue
(`StatusUpdateRequest` from the board page): target id, latest requested
status, and the tree snapshot captured when the entry was first created. -/
structure StatusUpdateRequest where
  todoId : Int
  status : Status
  snapshot : List Todo
deriving DecidableEq

/-- `enqueueStatusUpdate(todoId, status, snapshot)` from the board page:
keep the snapshot of an existing entry for the same id, drop every entry for
that id, and push one entry with the latest status. -/
def enqueueStatusUpdate (queue : List StatusUpdateRequest) (todoId : Int)
    (status : Status) (snapshot : List Todo) : List StatusUpdateRequest :=
  let existing := queue.find? (fun item => item.todoId == todoId)
  let snapshotToStore := match existing with
    | some e => e.snapshot
    | none => snapshot
  (queue.filter (fun item => !(item.todoId == todoId))) ++
    [{ todoId := todoId, status := status, snapshot := snapshotToStore }]

/-- Body of `persistStatusQueue`: what gets serialized to
`localStorage[STATUS_QUEUE_STORAGE_KEY]` — ids and statuses only, snapshots
are not persisted. -/
def serializeStatusQueue (queue : List StatusUpdateRequest) :
    List (Int × Status) :=
  queue.map (fun r => (r.todoId, r.status))

/-- Payload of the create-todo offline operation
(`SerializedTodoPayload` from `src/utils/offlineQueue.ts`). -/
structure SerializedTodoPayload where
  title : String
  description : Option (Option String) := none
  startDate : Option (Option String) := none
  endDate : Option (Option String) := none
  status : Option Status := none
deriving DecidableEq

/-- `OfflineOperation` from `src/utils/offlineQueue.ts`: a queued
"create item" or "set status" mutation recorded while offline. -/
inductive OfflineOperation where
  | createTodo (values : SerializedTodoPayload) (parentId : Option Int)
  | updateStatus (id : Int) (status : Status)
deriving DecidableEq

/-- `enqueueOperation(operation)`: read the persisted queue, push, write it
back.  The persisted JSON list is modelled as the list itself. -/
def enqueueOperation (queue : List OfflineOperation)
    (operation : OfflineOperation) : List OfflineOperation :=
  queue ++ [operation]

/-- `consumeQueue()`: returns the full persisted list and persists an empty
one.  First component is the returned list, second the new persisted state. -/
def consumeQueue (queue : List OfflineOperation) :
    List OfflineOperation × List OfflineOperation :=
  (queue, [])

/-- `pushBackQueue(queue)`: overwrite the persisted state with `queue`. -/
def pushBackQueue (_current queue : List OfflineOperation) :
    List OfflineOperation :=
  queue

/-- `hasPendingOperations()`: non-destructive check
(`readQueue().length > 0`). -/
def hasPendingOperations (queue : List OfflineOperation) : Bool :=
  decide (queue.length > 0)

/-- Replay loop of `flushOfflineQueue`, iterating from position `idx`:
`ok i` tells whether the server call for the operation at index `i` succeeds
(the `try` block) or throws (the `catch` block).  Returns the operations
applied (the successful server calls, in order), the `remaining` list pushed
back to the queue (`remaining.push(operation, ...operations.slice(index+1))`
at the first failure), and the `hasProcessed` flag. -/
def replayOfflineAux (ok : Nat → Bool) :
    Nat → List OfflineOperation →
      List OfflineOperation × List OfflineOperation × Bool
  | _, [] => ([], [], false)
  | idx, op :: rest =>
    if ok idx then
      let r := replayOfflineAux ok (idx + 1) rest
      (op :: r.1, r.2.1, true)
    else ([], op :: rest, false)

/-- `flushOfflineQueue` from the board page, as a function of the persisted
offline queue and of which replay attempts succeed: consume the queue, return
early when it is empty, otherwise run the replay loop and push the remainder
back.  Result: (operations applied in order, new persisted queue,
`hasProcessed`). -/
def flushOfflineQueue (queue : List OfflineOperation) (ok : Nat → Bool) :
    List OfflineOperation × List OfflineOperation × Bool :=
  let operations := (consumeQueue queue).1
  if operations.length = 0 then ([], [], false)
  else
    let r := replayOfflineAux ok 0 operations
    (r.1, pushBackQueue (consumeQueue queue).2 r.2.1, r.2.2)

/-- Client-side state owned by the board page that the modelled handlers
touch: the in-memory tree (`todos`; `todosRef` mirrors it via `cloneTodos`),
the Status Update Batcher queue (`statusQueueRef`) and its persisted form
(`localStorage[STATUS_QUEUE_STORAGE_KEY]`), the persisted offline operation
queue, the bearer token, the error banner (`error` state), and the current
route (`"/login"` after `router.replace("/login")`). -/
structure BoardState where
  todos : List Todo
  statusQueue : List StatusUpdateRequest
  persistedStatusQueue : List (Int × Status)
  offlineQueue : List OfflineOperation
  token : Option String
  error : Option String
  route : String
deriving DecidableEq

/-- Outcome of the `updateTodoStatusesBatch` network call awaited by
`flushPendingStatusQueue`: success, or a thrown `ApiError` carrying an
optional HTTP status and a message. -/
inductive BatchOutcome where
  | ok
  | err (status : Option Int) (message : String)
deriving DecidableEq

/-- `flushPendingStatusQueue({ keepalive })` from the board page.  Empty
queue: return `true` without a request.  Success: clear the queue (memory and
storage), then `updateTodosState` re-applies status `TODO` to every flushed
id (`ids.reduce((acc, id) => applyStatusToList(acc, id, "TODO"), prev)`), and
when not keepalive the error banner is cleared.  Failure, not keepalive: on a
401 the queue is cleared and persisted, `logout()` discards the token
(`logoutUser` → `clearAuthToken`; `handleResponse` already cleared it when it
saw the 401) and the user is routed to `"/login"`; otherwise only the error
banner is set.  Returns the new state and the boolean result. -/
def flushPendingStatusQueue (s : BoardState) (keepalive : Bool)
    (outcome : BatchOutcome) : BoardState × Bool :=
  if s.statusQueue.length = 0 then (s, true)
  else
    let payload := serializeStatusQueue s.statusQueue
    match outcome with
    | .ok =>
      let ids := payload.map Prod.fst
      let s1 := { s with statusQueue := [], persistedStatusQueue := [] }
      let s2 := { s1 with
        todos := ids.foldl (fun acc id => applyStatusToList acc id Status.TODO)
          s1.todos }
      (if keepalive then s2 else { s2 with error := none }, true)
    | .err st msg =>
      if keepalive then (s, false)
      else if st = some 401 then
        ({ s with statusQueue := [], persistedStatusQueue := [],
                  token := none, route := "/login" }, false)
      else
        ({ s with error := some msg }, false)

/-- `handleUpdateStatus(todo, status)` from the board page.  Early return
when the status is unchanged; refusal with an informational message when the
id is a negative optimistic placeholder; otherwise clear the error banner,
snapshot the tree, apply the status optimistically, enqueue the batched
status update (persisting the serialized queue), and when offline also record
the mutation on the offline operation queue and set the offline banner. -/
def handleUpdateStatus (s : BoardState) (todo : Todo) (status : Status)
    (offline : Bool) : BoardState :=
  if todo.status = status then s
  else if todo.id < 0 then
    { s with
        error :=
          some "Please wait for this todo to sync before updating its status." }
  else
    let snapshot := cloneTodos s.todos
    let newTodos := applyStatusToList s.todos todo.id status
    let newQueue := enqueueStatusUpdate s.statusQueue todo.id status snapshot
    let s1 := { s with
      error := none,
      todos := newTodos,
      statusQueue := newQueue,
      persistedStatusQueue := serializeStatusQueue newQueue }
    if offline then
      { s1 with
        offlineQueue := enqueueOperation s1.offlineQueue
          (.updateStatus todo.id status),
        error := some "Offline mode: status change queued for sync." }
    else s1

/-- `handleDeleteTodo(target)` from the board page, as a function of whether
the server call `deleteTodo(target.id)` succeeds: snapshot the tree, drop the
target's pending status-queue entries (persisting the queue), optimistically
remove the target subtree, then on success clear the error banner and on
failure restore the snapshot and set the error message. -/
def handleDeleteTodo (s : BoardState) (target : Todo) (serverOk : Bool)
    (failureMessage : String) : BoardState :=
  let snapshot := cloneTodos s.todos
  let newQueue := s.statusQueue.filter (fun item => !(item.todoId == target.id))
  let s1 := { s with
    statusQueue := newQueue,
    persistedStatusQueue := serializeStatusQueue newQueue,
    todos := removeTodoFromTree s.todos target.id }
  if serverOk then { s1 with error := none }
  else { s1 with todos := snapshot, error := some failureMessage }

/-- Inbound message on the `EventSource` stream, after the `JSON.parse`
attempt: `malformed` covers empty `event.data`, unparseable JSON and a null
payload (all discarded by the early returns / the `catch`); `parsed` carries
the typed payload `{ type?, userId?, todos?, removedIds? }` with the `todos`
array already normalized to `Todo` values. -/
inductive PushMessage where
  | malformed
  | parsed (type : Option String) (userId : Option Int)
      (todos : Option (List Todo)) (removedIds : Option (List Int))

/-- The `source.onmessage` handler from the board page, as a function of the
current user's id and the tree: discard messages not addressed to the current
user, upsert the included items for the create/update/status kinds, remove
the listed ids for the delete kind, ignore everything else.  The handler
never touches the error banner, so the second component (the banner) is
returned unchanged on every path. -/
def handlePushMessage (currentUserId : Option Int) (todos : List Todo)
    (error : Option String) (msg : PushMessage) :
    List Todo × Option String :=
  match msg with
  | .malformed => (todos, error)
  | .parsed type userId payloadTodos removedIds =>
    if userId ≠ currentUserId then (todos, error)
    else if type = some "create" ∨ type = some "update" ∨
        type = some "status_single" ∨ type = some "status_batch" then
      match payloadTodos with
      | some items =>
        (items.foldl (fun next todo => upsertTodoInTree next todo)
          (cloneTodos todos), error)
      | none => (todos, error)
    else if type = some "delete" then
      match removedIds with
      | some ids =>
        (ids.foldl (fun next i => removeTodoFromTree next i)
          (cloneTodos todos), error)
      | none => (todos, error)
    else (todos, error)

/-! Helper lemmas about the Tree Reconciler operations. -/

mutual
theorem cloneNode_eq : ∀ t : Todo, cloneNode t = t
  | .node d subs => by simp [cloneNode, cloneTodos_eq subs]
theorem cloneTodos_eq : ∀ l : List Todo, cloneTodos l = l
  | [] => by simp [cloneTodos]
  | t :: rest => by simp [cloneTodos, cloneNode_eq t, cloneTodos_eq rest]
end

theorem removeTodoNode_id (t : Todo) (i : Int) :
    (removeTodoNode t i).id = t.id := by
  cases t with
  | node d subs => simp [removeTodoNode, Todo.id, Todo.data]

mutual
theorem removeTodoNode_idem : ∀ (t : Todo) (i : Int),
    removeTodoNode (removeTodoNode t i) i = removeTodoNode t i
  | .node d subs, i => by
    simp [removeTodoNode, removeTodoFromTree_idem subs i]
theorem removeTodoFromTree_idem : ∀ (l : List Todo) (i : Int),
    removeTodoFromTree (removeTodoFromTree l i) i = removeTodoFromTree l i
  | [], i => by simp [removeTodoFromTree]
  | t :: rest, i => by
    by_cases h : t.id = i
    · simp [removeTodoFromTree, h, removeTodoFromTree_idem rest i]
    · simp [removeTodoFromTree, h, removeTodoNode_id,
        removeTodoNode_idem t i, removeTodoFromTree_idem rest i]
end

mutual
theorem nodeContainsId_removeTodoNode : ∀ (t : Todo) (i : Int), t.id ≠ i →
    nodeContainsId (removeTodoNode t i) i = false
  | .node d subs, i, h => by
    simp only [Todo.id, Todo.data] at h
    simp [removeTodoNode, nodeContainsId, treeContainsId_removeTodoFromTree subs i, h]
theorem treeContainsId_removeTodoFromTree : ∀ (l : List Todo) (i : Int),
    treeContainsId (removeTodoFromTree l i) i = false
  | [], i => by simp [removeTodoFromTree, treeContainsId]
  | t :: rest, i => by
    by_cases h : t.id = i
    · simp [removeTodoFromTree, h, treeContainsId_removeTodoFromTree rest i]
    · simp [removeTodoFromTree, h, treeContainsId,
        nodeContainsId_removeTodoNode t i h,
        treeContainsId_removeTodoFromTree rest i]
end

theorem upsertNode_self : ∀ u : Todo, upsertNode u u = u
  | .node d subs => by simp [upsertNode, Todo.id, Todo.data]

theorem upsertTodoInTree_isEmpty (l : List Todo) (u : Todo) :
    (upsertTodoInTree l u).isEmpty = l.isEmpty := by
  cases l <;> simp [upsertTodoInTree]

mutual
theorem upsertNode_idem : ∀ (t u : Todo),
    upsertNode (upsertNode t u) u = upsertNode t u
  | .node d subs, u => by
    by_cases h : d.id = u.id
    · simp [upsertNode, h, upsertNode_self]
    · by_cases hs : subs.isEmpty
      · simp [upsertNode, h, hs]
      · simp [upsertNode, h, hs, upsertTodoInTree_isEmpty,
          upsertTodoInTree_idem subs u]
theorem upsertTodoInTree_idem : ∀ (l : List Todo) (u : Todo),
    upsertTodoInTree (upsertTodoInTree l u) u = upsertTodoInTree l u
  | [], u => by simp [upsertTodoInTree]
  | t :: rest, u => by
    simp [upsertTodoInTree, upsertNode_idem t u, upsertTodoInTree_idem rest u]
end

theorem setStatus_id (t : Todo) (st : Status) : (setStatus t st).id = t.id := by
  cases t with
  | node d subs => simp [setStatus, Todo.id, Todo.data]

theorem setStatus_subtodos (t : Todo) (st : Status) :
    (setStatus t st).subtodos = t.subtodos := by
  cases t with
  | node d subs => simp [setStatus, Todo.subtodos]

theorem setStatus_setStatus (t : Todo) (st : Status) :
    setStatus (setStatus t st) st = setStatus t st := by
  cases t with
  | node d subs => simp [setStatus]

theorem patchStatusIfMatch_id (i : Int) (st : Status) (sub : Todo) :
    (patchStatusIfMatch i st sub).id = sub.id := by
  by_cases h : sub.id = i <;> simp [patchStatusIfMatch, h, setStatus_id]

theorem patchStatusIfMatch_idem (i : Int) (st : Status) (sub : Todo) :
    patchStatusIfMatch i st (patchStatusIfMatch i st sub) =
      patchStatusIfMatch i st sub := by
  by_cases h : sub.id = i
  · simp [patchStatusIfMatch, h, setStatus_id, setStatus_setStatus]
  · simp [patchStatusIfMatch, h]

theorem applyStatusToNode_idem (i : Int) (st : Status) (t : Todo) :
    applyStatusToNode i st (applyStatusToNode i st t) =
      applyStatusToNode i st t := by
  cases t with
  | node d subs =>
    by_cases h : d.id = i
    · by_cases hd : st = Status.DONE
      · subst hd
        simp [applyStatusToNode, h, List.map_map]
        exact fun x _ => setStatus_setStatus x Status.DONE
      · simp [applyStatusToNode, h, hd]
    · by_cases ha : subs.any (fun sub => sub.id == i)
      · have ha2 : (subs.map (patchStatusIfMatch i st)).any
            (fun sub => sub.id == i) = true := by
          rw [List.any_map]
          refine (List.any_eq_true).2 ?_
          obtain ⟨x, hx, hpx⟩ := (List.any_eq_true).1 ha
          exact ⟨x, hx, by simpa [Function.comp, patchStatusIfMatch_id] using hpx⟩
        simp [applyStatusToNode, h, ha, ha2, List.map_map]
        exact fun x _ => patchStatusIfMatch_idem i st x
      · simp [applyStatusToNode, h, ha]

theorem applyStatusToList_idem (l : List Todo) (i : Int) (st : Status) :
    applyStatusToList (applyStatusToList l i st) i st =
      applyStatusToList l i st := by
  simp only [applyStatusToList, List.map_map]
  exact List.map_congr_left fun x _ => applyStatusToNode_idem i st x

theorem applyMetaData_id (d : TodoData) (u : MetaUpdates) :
    (applyMetaData d u).id = d.id := by
  simp [applyMetaData]

theorem applyMetaData_idem (d : TodoData) (u : MetaUpdates) :
    applyMetaData (applyMetaData d u) u = applyMetaData d u := by
  obtain ⟨t, de, sd, ed⟩ := u
  cases t <;> cases de <;> cases sd <;> cases ed <;> simp [applyMetaData]

theorem applyMetaToList_isEmpty (l : List Todo) (i : Int) (u : MetaUpdates) :
    (applyMetaToList l i u).isEmpty = l.isEmpty := by
  cases l <;> simp [applyMetaToList]

mutual
theorem applyMetaNode_idem : ∀ (t : Todo) (i : Int) (u : MetaUpdates),
    applyMetaNode (applyMetaNode t i u) i u = applyMetaNode t i u
  | .node d subs, i, u => by
    by_cases h : d.id = i
    · simp [applyMetaNode, h, applyMetaData_id, applyMetaData_idem]
    · by_cases hs : subs.isEmpty
      · simp [applyMetaNode, h, hs]
      · simp [applyMetaNode, h, hs, applyMetaToList_isEmpty,
          applyMetaToList_idem subs i u]
theorem applyMetaToList_idem : ∀ (l : List Todo) (i : Int) (u : MetaUpdates),
    applyMetaToList (applyMetaToList l i u) i u = applyMetaToList l i u
  | [], _, _ => by simp [applyMetaToList]
  | t :: rest, i, u => by
    simp [applyMetaToList, applyMetaNode_idem t i u, applyMetaToList_idem rest i u]
end

theorem list_map_eq_self {α : Type} (l : List α) (f : α → α)
    (h : ∀ a ∈ l, f a = a) : l.map f = l := by
  induction l with
  | nil => rfl
  | cons x xs ih =>
    simp [h x (by simp), ih (fun a ha => h a (by simp [ha]))]

theorem applyStatusToNode_not_present (i : Int) (st : Status) (u : Todo)
    (h1 : u.id ≠ i) (h2 : ∀ s ∈ u.subtodos, s.id ≠ i) :
    applyStatusToNode i st u = u := by
  cases u with
  | node d subs =>
    simp only [Todo.id, Todo.data] at h1
    simp only [Todo.subtodos] at h2
    have ha : subs.any (fun sub => sub.id == i) = false := by
      simp only [List.any_eq_false]
      intro x hx
      simpa using h2 x hx
    simp [applyStatusToNode, h1, ha]

theorem patchStatusIfMatch_of_ne (i : Int) (st : Status) (s : Todo)
    (h : s.id ≠ i) : patchStatusIfMatch i st s = s := by
  simp [patchStatusIfMatch, h]

theorem patchStatusIfMatch_of_eq (i : Int) (st : Status) (s : Todo)
    (h : s.id = i) : patchStatusIfMatch i st s = setStatus s st := by
  simp [patchStatusIfMatch, h]

/-- C3.  `applyStatus(tree, id, "DONE")` on a root item sets that root's
status and every one of its (direct) children's statuses to `DONE`, leaving
every other root — and every other root's children — untouched; and
`applyStatus(tree, childId, "TODO")` on a child of some root sets only that
child's status, never the parent's status nor any sibling, leaving all other
roots untouched.  The frame hypotheses say the target id occurs nowhere else
among the roots and their direct children (ids are unique in the
authoritative tree). -/
theorem applyStatus_root_cascades_child_isolated :
    (∀ (l₁ l₂ : List Todo) (t : Todo) (i : Int),
      t.id = i →
      (∀ u ∈ l₁ ++ l₂, u.id ≠ i ∧ ∀ s ∈ u.subtodos, s.id ≠ i) →
      applyStatusToList (l₁ ++ t :: l₂) i Status.DONE =
        l₁ ++ (Todo.node { t.data with status := Status.DONE }
          (t.subtodos.map (fun sub => setStatus sub Status.DONE))) :: l₂) ∧
    (∀ (l₁ l₂ s₁ s₂ : List Todo) (p c : Todo) (i : Int),
      c.id = i → p.id ≠ i → p.subtodos = s₁ ++ c :: s₂ →
      (∀ s ∈ s₁ ++ s₂, s.id ≠ i) →
      (∀ u ∈ l₁ ++ l₂, u.id ≠ i ∧ ∀ s ∈ u.subtodos, s.id ≠ i) →
      applyStatusToList (l₁ ++ p :: l₂) i Status.TODO =
        l₁ ++ (Todo.node p.data (s₁ ++ setStatus c Status.TODO :: s₂)) :: l₂) := by
  constructor
  · intro l₁ l₂ t i hti hframe
    simp only [applyStatusToList, List.map_append, List.map_cons]
    rw [list_map_eq_self l₁ _ (fun u hu =>
          applyStatusToNode_not_present i Status.DONE u
            (hframe u (by simp [hu])).1 (hframe u (by simp [hu])).2),
        list_map_eq_self l₂ _ (fun u hu =>
          applyStatusToNode_not_present i Status.DONE u
            (hframe u (by simp [hu])).1 (hframe u (by simp [hu])).2)]
    cases t with
    | node d subs =>
      simp only [Todo.id, Todo.data] at hti
      simp [applyStatusToNode, hti, Todo.data, Todo.subtodos]
  · intro l₁ l₂ s₁ s₂ p c i hci hpi hsubs hsib hframe
    simp only [applyStatusToList, List.map_append, List.map_cons]
    rw [list_map_eq_self l₁ _ (fun u hu =>
          applyStatusToNode_not_present i Status.TODO u
            (hframe u (by simp [hu])).1 (hframe u (by simp [hu])).2),
        list_map_eq_self l₂ _ (fun u hu =>
          applyStatusToNode_not_present i Status.TODO u
            (hframe u (by simp [hu])).1 (hframe u (by simp [hu])).2)]
    cases p with
    | node d subs =>
      simp only [Todo.id, Todo.data] at hpi
      simp only [Todo.subtodos] at hsubs
      subst hsubs
      have ha : (s₁ ++ c :: s₂).any (fun sub => sub.id == i) = true := by
        refine (List.any_eq_true).2 ⟨c, by simp, by simp [hci]⟩
      simp only [applyStatusToNode, hpi, if_false, ha, if_true, Todo.data]
      rw [List.map_append, List.map_cons,
        list_map_eq_self s₁ _ (fun s hs =>
          patchStatusIfMatch_of_ne i Status.TODO s (hsib s (by simp [hs]))),
        list_map_eq_self s₂ _ (fun s hs =>
          patchStatusIfMatch_of_ne i Status.TODO s (hsib s (by simp [hs]))),
        patchStatusIfMatch_of_eq i Status.TODO c hci]

/-- C2 counterexample.  The claim says every Tree Reconciler operation is
idempotent, `insertChild` (`addSubTodoToParent`) included; but applying
`addSubTodoToParent` twice with the same arguments appends the child a second
time, so the result differs from a single application. -/
theorem addSubTodoToParent_not_idempotent :
    addSubTodoToParent
        (addSubTodoToParent [mkTodo 1 Status.TODO []] 1 (mkTodo 2 Status.TODO []))
        1 (mkTodo 2 Status.TODO [])
      ≠ addSubTodoToParent [mkTodo 1 Status.TODO []] 1 (mkTodo 2 Status.TODO []) := by
  decide

/-- C2 (amended).  The Tree Reconciler operations other than `insertChild` —
`removeById` (`removeTodoFromTree`), `upsertById` (`upsertTodoInTree`),
`applyStatus` (`applyStatusToList`) and `applyFields` (`applyMetaToList`) —
are idempotent under repeated application with the same arguments.
`insertChild` is not idempotent (it appends the child again).  The
"must not mutate the input tree" clause holds by construction in this value
semantics: each operation is a pure function of its input. -/
theorem reconciler_ops_idempotent :
    (∀ (l : List Todo) (i : Int),
      removeTodoFromTree (removeTodoFromTree l i) i = removeTodoFromTree l i) ∧
    (∀ (l : List Todo) (u : Todo),
      upsertTodoInTree (upsertTodoInTree l u) u = upsertTodoInTree l u) ∧
    (∀ (l : List Todo) (i : Int) (st : Status),
      applyStatusToList (applyStatusToList l i st) i st = applyStatusToList l i st) ∧
    (∀ (l : List Todo) (i : Int) (u : MetaUpdates),
      applyMetaToList (applyMetaToList l i u) i u = applyMetaToList l i u) :=
  ⟨removeTodoFromTree_idem, upsertTodoInTree_idem,
    applyStatusToList_idem, applyMetaToList_idem⟩

theorem replayOfflineAux_spec (ok : Nat → Bool) :
    ∀ (k idx : Nat) (l : List OfflineOperation),
      (∀ j, j < k → ok (idx + j) = true) → ok (idx + k) = false →
      k < l.length →
      replayOfflineAux ok idx l = (l.take k, l.drop k, decide (0 < k)) := by
  intro k
  induction k with
  | zero =>
    intro idx l hlt hk hlen
    cases l with
    | nil => simp at hlen
    | cons op rest =>
      simp only [Nat.add_zero] at hk
      simp [replayOfflineAux, hk]
  | succ k ih =>
    intro idx l hlt hk hlen
    cases l with
    | nil => simp at hlen
    | cons op rest =>
      have h0 : ok idx = true := by simpa using hlt 0 (Nat.succ_pos k)
      have hlt2 : ∀ j, j < k → ok (idx + 1 + j) = true := by
        intro j hj
        have h3 := hlt (j + 1) (by omega)
        have h4 : idx + 1 + j = idx + (j + 1) := by omega
        rw [h4]; exact h3
      have hk2 : ok (idx + 1 + k) = false := by
        have h4 : idx + 1 + k = idx + (k + 1) := by omega
        rw [h4]; exact hk
      have hlen2 : k < rest.length := by simpa using hlen
      simp [replayOfflineAux, h0, ih (idx + 1) rest hlt2 hk2 hlen2]

/-- C4.  When the replay of the offline queue first fails at index `k`
(every earlier server call succeeds, the call for operation `k` throws), the
flush applies exactly the first `k` operations in their original enqueue
order and pushes back exactly the failing operation and everything after it,
verbatim and in order (`queue.drop k`), dropping the already-applied prefix;
`hasProcessed` is set iff at least one operation has been applied. -/
theorem flushOfflineQueue_replays_in_order_and_requeues_tail :
    ∀ (queue : List OfflineOperation) (ok : Nat → Bool) (k : Nat),
      (∀ j, j < k → ok j = true) → ok k = false → k < queue.length →
      flushOfflineQueue queue ok = (queue.take k, queue.drop k, decide (0 < k)) := by
  intro queue ok k h1 h2 h3
  have hne : ¬ queue.length = 0 := by omega
  have h1' : ∀ j, j < k → ok (0 + j) = true := by
    intro j hj; simpa using h1 j hj
  have h2' : ok (0 + k) = false := by simpa using h2
  simp only [flushOfflineQueue, consumeQueue, if_neg hne, pushBackQueue]
  rw [replayOfflineAux_spec ok k 0 queue h1' h2' h3]

/-- C4 witness: a four-operation queue whose replay fails at index 2 applies
the first two operations and requeues the last two verbatim. -/
theorem flushOfflineQueue_witness :
    (∀ j, j < 2 → (fun n => decide (n < 2)) j = true) ∧
    flushOfflineQueue
        [OfflineOperation.updateStatus 1 Status.DONE,
         OfflineOperation.updateStatus 2 Status.IN_PROGRESS,
         OfflineOperation.updateStatus 3 Status.DONE,
         OfflineOperation.createTodo { title := "x" } none]
        (fun n => decide (n < 2)) =
      ([OfflineOperation.updateStatus 1 Status.DONE,
        OfflineOperation.updateStatus 2 Status.IN_PROGRESS],
       [OfflineOperation.updateStatus 3 Status.DONE,
        OfflineOperation.createTodo { title := "x" } none], true) := by
  refine ⟨by decide, ?_⟩
  have h := flushOfflineQueue_replays_in_order_and_requeues_tail
    [OfflineOperation.updateStatus 1 Status.DONE,
     OfflineOperation.updateStatus 2 Status.IN_PROGRESS,
     OfflineOperation.updateStatus 3 Status.DONE,
     OfflineOperation.createTodo { title := "x" } none]
    (fun n => decide (n < 2)) 2 (by decide) (by decide) (by decide)
  simpa using h

/-- C3 witness: the spec scenario — root `{id: 5}` with child `{id: 6}` and an
unrelated root `{id: 9}`: marking root 5 `DONE` cascades onto child 6 and
leaves root 9 alone; marking child 6 back to `TODO` changes neither root 5's
status nor anything else. -/
theorem applyStatus_witness :
    applyStatusToList
        [mkTodo 9 Status.TODO [mkTodo 10 Status.TODO []],
         mkTodo 5 Status.IN_PROGRESS [mkTodo 6 Status.TODO []]] 5 Status.DONE =
      [mkTodo 9 Status.TODO [mkTodo 10 Status.TODO []],
       mkTodo 5 Status.DONE [mkTodo 6 Status.DONE []]] ∧
    applyStatusToList
        [mkTodo 9 Status.TODO [mkTodo 10 Status.TODO []],
         mkTodo 5 Status.DONE [mkTodo 6 Status.DONE []]] 6 Status.TODO =
      [mkTodo 9 Status.TODO [mkTodo 10 Status.TODO []],
       mkTodo 5 Status.DONE [mkTodo 6 Status.TODO []]] := by
  constructor
  · have h := applyStatus_root_cascades_child_isolated.1
      [mkTodo 9 Status.TODO [mkTodo 10 Status.TODO []]] []
      (mkTodo 5 Status.IN_PROGRESS [mkTodo 6 Status.TODO []]) 5
      (by decide) (by decide)
    exact h
  · have h := applyStatus_root_cascades_child_isolated.2
      [mkTodo 9 Status.TODO [mkTodo 10 Status.TODO []]] [] [] []
      (mkTodo 5 Status.DONE [mkTodo 6 Status.DONE []]) (mkTodo 6 Status.DONE []) 6
      (by decide) (by decide) (by decide) (by decide) (by decide)
    exact h

theorem enqueueStatusUpdate_filter_existing (q : List StatusUpdateRequest)
    (i : Int) (st : Status) (snap : List Todo) (e : StatusUpdateRequest)
    (he : q.find? (fun item => item.todoId == i) = some e) :
    (enqueueStatusUpdate q i st snap).filter (fun item => item.todoId == i) =
      [{ todoId := i, status := st, snapshot := e.snapshot }] := by
  simp only [enqueueStatusUpdate, he, List.filter_append, List.filter_filter]
  have h0 : (List.filter
      (fun a => (a.todoId == i) && !(a.todoId == i)) q) = [] := by
    refine List.filter_eq_nil_iff.2 ?_
    intro a _
    simp [Bool.and_not_self]
  rw [h0]
  simp

theorem enqueueStatusUpdate_filter_new (q : List StatusUpdateRequest)
    (i : Int) (st : Status) (snap : List Todo)
    (he : q.find? (fun item => item.todoId == i) = none) :
    (enqueueStatusUpdate q i st snap).filter (fun item => item.todoId == i) =
      [{ todoId := i, status := st, snapshot := snap }] := by
  simp only [enqueueStatusUpdate, he, List.filter_append, List.filter_filter]
  have h0 : (List.filter
      (fun a => (a.todoId == i) && !(a.todoId == i)) q) = [] := by
    refine List.filter_eq_nil_iff.2 ?_
    intro a _
    simp [Bool.and_not_self]
  rw [h0]
  simp

theorem enqueueStatusUpdate_count (q : List StatusUpdateRequest) (i : Int)
    (st : Status) (snap : List Todo) :
    ((enqueueStatusUpdate q i st snap).map (fun r => r.todoId)).count i = 1 := by
  simp only [enqueueStatusUpdate, List.map_append, List.count_append]
  have h0 : ((q.filter (fun item => !(item.todoId == i))).map
      (fun r => r.todoId)).count i = 0 := by
    refine List.count_eq_zero.2 ?_
    intro hmem
    obtain ⟨r, hr, hri⟩ := List.mem_map.1 hmem
    have := List.of_mem_filter hr
    simp [hri] at this
  simp [h0]

theorem enqueueStatusUpdate_nodup (q : List StatusUpdateRequest) (i : Int)
    (st : Status) (snap : List Todo)
    (h : (q.map (fun r => r.todoId)).Nodup) :
    ((enqueueStatusUpdate q i st snap).map (fun r => r.todoId)).Nodup := by
  simp only [enqueueStatusUpdate, List.map_append]
  refine (List.nodup_append).2 ⟨?_, by simp, ?_⟩
  · exact h.sublist ((List.filter_sublist q).map (fun r => r.todoId))
  · intro x hx
    obtain ⟨r, hr, hri⟩ := List.mem_map.1 hx
    have h2 := List.of_mem_filter hr
    simp only [List.map_cons, List.map_nil, List.mem_singleton]
    intro hxi
    rw [hxi] at hri
    simp [hri] at h2

/-- C5.  The Status Update Batcher coalesces by item id: recording a status
for an id that already has a pending entry leaves exactly one entry for that
id, carrying the newly recorded (latest) status but the snapshot of the
existing entry (the one captured at the first record); recording for a fresh
id creates one entry with the given snapshot; each record leaves exactly one
entry for the recorded id and preserves distinctness of the queued ids, so
the flush payload (`serializeStatusQueue`, the `payload` array sent by
`flushPendingStatusQueue`) carries exactly one `(id, status)` pair for the
recorded id, with the latest status. -/
theorem statusBatcher_coalesces_keeping_first_snapshot :
    (∀ (q : List StatusUpdateRequest) (i : Int) (st : Status)
        (snap : List Todo) (e : StatusUpdateRequest),
      q.find? (fun item => item.todoId == i) = some e →
      (enqueueStatusUpdate q i st snap).filter (fun item => item.todoId == i) =
        [{ todoId := i, status := st, snapshot := e.snapshot }]) ∧
    (∀ (q : List StatusUpdateRequest) (i : Int) (st : Status) (snap : List Todo),
      q.find? (fun item => item.todoId == i) = none →
      (enqueueStatusUpdate q i st snap).filter (fun item => item.todoId == i) =
        [{ todoId := i, status := st, snapshot := snap }]) ∧
    (∀ (q : List StatusUpdateRequest) (i : Int) (st : Status) (snap : List Todo),
      ((enqueueStatusUpdate q i st snap).map (fun r => r.todoId)).count i = 1) ∧
    (∀ (q : List StatusUpdateRequest) (i : Int) (st : Status) (snap : List Todo),
      (q.map (fun r => r.todoId)).Nodup →
      ((enqueueStatusUpdate q i st snap).map (fun r => r.todoId)).Nodup) ∧
    (∀ (q : List StatusUpdateRequest) (i : Int) (st : Status)
        (snap : List Todo) (e : StatusUpdateRequest),
      q.find? (fun item => item.todoId == i) = some e →
      (serializeStatusQueue (enqueueStatusUpdate q i st snap)).filter
          (fun pr => pr.1 == i) = [(i, st)]) := by
  refine ⟨enqueueStatusUpdate_filter_existing, enqueueStatusUpdate_filter_new,
    enqueueStatusUpdate_count, enqueueStatusUpdate_nodup, ?_⟩
  intro q i st snap e he
  have h1 := enqueueStatusUpdate_filter_existing q i st snap e he
  simp only [serializeStatusQueue, List.filter_map]
  have h2 : ((fun (pr : Int × Status) => pr.1 == i) ∘
        fun (r : StatusUpdateRequest) => (r.todoId, r.status)) =
      fun (item : StatusUpdateRequest) => item.todoId == i := rfl
  rw [h2, h1]
  simp

/-- C5 witness: the spec scenario — `record(7, TODO)` then `record(7, DONE)`
from an empty queue leaves exactly one entry for id 7 whose status is `DONE`
and whose snapshot is the one captured at the first record, and the flush
payload carries exactly `(7, DONE)`. -/
theorem statusBatcher_witness :
    (enqueueStatusUpdate
        (enqueueStatusUpdate [] 7 Status.TODO [mkTodo 7 Status.TODO []])
        7 Status.DONE [mkTodo 7 Status.IN_PROGRESS []]).filter
        (fun item => item.todoId == 7) =
      [{ todoId := 7, status := Status.DONE,
         snapshot := [mkTodo 7 Status.TODO []] }] ∧
    (serializeStatusQueue
        (enqueueStatusUpdate
          (enqueueStatusUpdate [] 7 Status.TODO [mkTodo 7 Status.TODO []])
          7 Status.DONE [mkTodo 7 Status.IN_PROGRESS []])).filter
        (fun pr => pr.1 == 7) = [(7, Status.DONE)] :=
  ⟨statusBatcher_coalesces_keeping_first_snapshot.1
      (enqueueStatusUpdate [] 7 Status.TODO [mkTodo 7 Status.TODO []])
      7 Status.DONE [mkTodo 7 Status.IN_PROGRESS []]
      { todoId := 7, status := Status.TODO,
        snapshot := [mkTodo 7 Status.TODO []] } (by decide),
   statusBatcher_coalesces_keeping_first_snapshot.2.2.2.2
      (enqueueStatusUpdate [] 7 Status.TODO [mkTodo 7 Status.TODO []])
      7 Status.DONE [mkTodo 7 Status.IN_PROGRESS []]
      { todoId := 7, status := Status.TODO,
        snapshot := [mkTodo 7 Status.TODO []] } (by decide)⟩

/-- C6.  Deleting an item optimistically replaces the tree by
`removeTodoFromTree`, which removes the target node — and with it,
transitively, the whole subtree of its children: no node with the target id
survives anywhere; and when the server rejects the deletion the tree is
restored to the exact snapshot taken immediately before the optimistic
removal (the snapshot is a deep clone of the tree, and cloning is the
identity on values, so the tree is exactly the pre-delete tree). -/
theorem handleDeleteTodo_removes_then_restores_on_failure :
    ∀ (s : BoardState) (target : Todo) (msg : String),
      (handleDeleteTodo s target true msg).todos =
        removeTodoFromTree s.todos target.id ∧
      treeContainsId (removeTodoFromTree s.todos target.id) target.id = false ∧
      (handleDeleteTodo s target false msg).todos = s.todos := by
  intro s target msg
  refine ⟨?_, treeContainsId_removeTodoFromTree s.todos target.id, ?_⟩
  · simp [handleDeleteTodo]
  · simp [handleDeleteTodo, cloneTodos_eq]

theorem foldl_enqueueOperation (ops : List OfflineOperation) :
    ∀ init : List OfflineOperation,
      ops.foldl enqueueOperation init = init ++ ops := by
  induction ops with
  | nil => intro init; simp
  | cons op rest ih =>
    intro init
    simp [enqueueOperation, ih (init ++ [op])]

/-- C7.  Enqueuing any sequence of operations on the (initially empty)
Pending Operation Queue and then draining returns exactly that sequence in
enqueue order and persists an empty queue, so a second drain with no
intervening enqueues returns the empty list and `hasPendingOperations`
reports `false`. -/
theorem offlineQueue_drains_in_order_then_empty :
    ∀ ops : List OfflineOperation,
      (consumeQueue (ops.foldl enqueueOperation [])).1 = ops ∧
      (consumeQueue (ops.foldl enqueueOperation [])).2 = [] ∧
      (consumeQueue (consumeQueue (ops.foldl enqueueOperation [])).2).1 = [] ∧
      hasPendingOperations (consumeQueue (ops.foldl enqueueOperation [])).2
        = false := by
  intro ops
  simp [consumeQueue, hasPendingOperations, foldl_enqueueOperation ops []]

/-- C8.  The push-message consumer leaves the tree (and the error banner)
completely unchanged for any parsed message whose `userId` differs from the
current authenticated user's id, and likewise discards malformed payloads
(empty data, unparseable JSON, null payload) without modifying the tree or
surfacing an error. -/
theorem pushConsumer_ignores_foreign_and_malformed :
    (∀ (uid : Option Int) (todos : List Todo) (err : Option String)
        (ty : Option String) (msgUid : Option Int)
        (ts : Option (List Todo)) (rids : Option (List Int)),
      msgUid ≠ uid →
      handlePushMessage uid todos err (.parsed ty msgUid ts rids) =
        (todos, err)) ∧
    (∀ (uid : Option Int) (todos : List Todo) (err : Option String),
      handlePushMessage uid todos err .malformed = (todos, err)) := by
  constructor
  · intro uid todos err ty msgUid ts rids h
    simp [handlePushMessage, h]
  · intro uid todos err
    simp [handlePushMessage]

/-- C8 witness: a status-change push addressed to user 2 is ignored by user
1's consumer, and a malformed payload is ignored, leaving the tree and error
banner untouched. -/
theorem pushConsumer_witness :
    handlePushMessage (some 1) [mkTodo 4 Status.TODO []] none
        (.parsed (some "status_single") (some 2)
          (some [mkTodo 4 Status.DONE []]) none) =
      ([mkTodo 4 Status.TODO []], none) ∧
    handlePushMessage (some 1) [mkTodo 4 Status.TODO []] none .malformed =
      ([mkTodo 4 Status.TODO []], none) :=
  ⟨pushConsumer_ignores_foreign_and_malformed.1 (some 1)
      [mkTodo 4 Status.TODO []] none (some "status_single") (some 2)
      (some [mkTodo 4 Status.DONE []]) none (by decide),
   pushConsumer_ignores_foreign_and_malformed.2 (some 1)
      [mkTodo 4 Status.TODO []] none⟩

/-- C9.  When the batch request behind a (non-keepalive) flush of a non-empty
pending status queue comes back 401, the session is terminated locally: the
in-memory queue and its persisted copy are cleared, the bearer token is
discarded (`logout` → `logoutUser` → `clearAuthToken`; `handleResponse`
had already cleared it on seeing the 401), the router is sent to
`"/login"`, and the flush simply returns `false` — no retry path exists. -/
theorem flush401_terminates_session :
    ∀ (s : BoardState) (msg : String), s.statusQueue ≠ [] →
      flushPendingStatusQueue s false (.err (some 401) msg) =
        ({ s with statusQueue := [], persistedStatusQueue := [],
                  token := none, route := "/login" }, false) := by
  intro s msg h
  have hlen : ¬ s.statusQueue.length = 0 := by simpa using h
  simp [flushPendingStatusQueue, hlen]

/-- C9 witness: a one-entry queue flushed into a 401 clears both queue
copies, drops the token and routes to the sign-in page. -/
theorem flush401_witness :
    flushPendingStatusQueue
        { todos := [mkTodo 1 Status.DONE []],
          statusQueue := [{ todoId := 1, status := Status.DONE, snapshot := [] }],
          persistedStatusQueue := [(1, Status.DONE)], offlineQueue := [],
          token := some "tok", error := none, route := "/" }
        false (.err (some 401) "Unauthorized") =
      ({ todos := [mkTodo 1 Status.DONE []], statusQueue := [],
         persistedStatusQueue := [], offlineQueue := [],
         token := none, error := none, route := "/login" }, false) := by
  have h := flush401_terminates_session
    { todos := [mkTodo 1 Status.DONE []],
      statusQueue := [{ todoId := 1, status := Status.DONE, snapshot := [] }],
      persistedStatusQueue := [(1, Status.DONE)], offlineQueue := [],
      token := some "tok", error := none, route := "/" }
    "Unauthorized" (by decide)
  exact h

/-- C10.  A status change requested for an optimistic placeholder (negative
id) is refused: the resulting state differs from the input state only in the
informational error banner — the tree, the pending status queue (in memory
and persisted) and the offline operation queue are all unchanged.  (A request
for the item's current status exits even earlier, changing nothing at all.) -/
theorem negativeId_status_change_refused :
    (∀ (s : BoardState) (todo : Todo) (st : Status) (offline : Bool),
      todo.status = st → handleUpdateStatus s todo st offline = s) ∧
    (∀ (s : BoardState) (todo : Todo) (st : Status) (offline : Bool),
      todo.status ≠ st → todo.id < 0 →
      handleUpdateStatus s todo st offline =
        { s with
            error :=
              some "Please wait for this todo to sync before updating its status." }) := by
  constructor
  · intro s todo st offline h
    simp [handleUpdateStatus, h]
  · intro s todo st offline h1 h2
    simp [handleUpdateStatus, h1, h2]

/-- C10 witness: moving the placeholder `id = -3` from `TODO` to `DONE` only
sets the informational message; tree and queues are untouched. -/
theorem negativeId_witness :
    handleUpdateStatus
        { todos := [mkTodo (-3) Status.TODO []], statusQueue := [],
          persistedStatusQueue := [], offlineQueue := [],
          token := some "tok", error := none, route := "/" }
        (mkTodo (-3) Status.TODO []) Status.DONE false =
      { todos := [mkTodo (-3) Status.TODO []], statusQueue := [],
        persistedStatusQueue := [], offlineQueue := [],
        token := some "tok",
        error :=
          some "Please wait for this todo to sync before updating its status.",
        route := "/" } := by
  have h := negativeId_status_change_refused.2
    { todos := [mkTodo (-3) Status.TODO []], statusQueue := [],
      persistedStatusQueue := [], offlineQueue := [],
      token := some "tok", error := none, route := "/" }
    (mkTodo (-3) Status.TODO []) Status.DONE false (by decide) (by decide)
  exact h

/-- Concrete board state for the C1 evaluation: one pending `DONE` update for
item 1, already optimistically applied to the tree. -/
def c1State : BoardState :=
  { todos := [mkTodo 1 Status.DONE []],
    statusQueue := [{ todoId := 1, status := Status.DONE, snapshot := [] }],
    persistedStatusQueue := [(1, Status.DONE)],
    offlineQueue := [], token := some "tok", error := none, route := "/" }

/-- C1 evaluation at the failing input.  The claim (and the spec) says a
successful flush clears the pending entries and leaves the tree exactly as it
was; the code does clear the entries, but its success path then re-applies
status `TODO` to every flushed id
(`ids.reduce((acc, id) => applyStatusToList(acc, id, "TODO"), prev)`), so the
optimistically applied `DONE` on item 1 is overwritten and the tree changes.
The failure half of the claim does hold: on an ordinary (non-401) error every
entry remains pending and the tree is not rolled back. -/
theorem flushSuccess_resets_statuses_to_TODO :
    (flushPendingStatusQueue c1State false BatchOutcome.ok).1.statusQueue
        = [] ∧
    (flushPendingStatusQueue c1State false BatchOutcome.ok).1.persistedStatusQueue
        = [] ∧
    c1State.todos = [mkTodo 1 Status.DONE []] ∧
    (flushPendingStatusQueue c1State false BatchOutcome.ok).1.todos
        = [mkTodo 1 Status.TODO []] ∧
    (flushPendingStatusQueue c1State false BatchOutcome.ok).1.todos
        ≠ c1State.todos ∧
    (flushPendingStatusQueue c1State false
        (BatchOutcome.err (some 500) "server error")).1.statusQueue
        = c1State.statusQueue ∧
    (flushPendingStatusQueue c1State false
        (BatchOutcome.err (some 500) "server error")).1.todos
        = c1State.todos := by
  decide
